import Mathlib

/-!
Verification of the weather-forecast pipeline (feature engineering, training,
inference, data loading and configuration resolution).

The Python sources are embedded shallowly:
* a pandas DataFrame of readings is a `List Reading`; a possibly-missing (NaN)
  column value is an `Option ℚ` (temperatures, humidities and wind speeds are
  carried around unchanged, so rationals stand in for floats);
* a timestamp is a UTC instant in seconds since the epoch (`ℕ`); `pandas`
  `dt.hour` / `dt.dayofweek` become arithmetic on that instant;
* external collaborators (BigQuery, scikit-learn's fitting routine, the model
  artifact on disk) enter as explicit parameters: a query result is an
  `Except` value, the fitted-model artifact is an `Option Model`, and the
  least-squares fit is an abstract total function on the extracted columns;
* a Python function that can raise at a modelled point returns an `Option`,
  with `none` standing for an escaping exception;
* the file-system side effect of `joblib.dump` is recorded as an explicit
  trace of file operations.
-/

/-- One stored weather observation (a row of the BigQuery table as selected by
`load_latest_data`: timestamp, temperature, humidity, wind_speed).  A `none`
column is a NaN/NULL cell. -/
structure Reading where
  timestamp : ℕ
  temperature : Option ℚ
  humidity : Option ℚ
  wind_speed : Option ℚ
  deriving DecidableEq, Repr

/-- A row of the engineered frame: the reading's columns plus the derived
`hour`, `day_of_week` and `target_temp` columns added by `engineer_features`. -/
structure FeatureRow where
  timestamp : ℕ
  temperature : Option ℚ
  humidity : Option ℚ
  wind_speed : Option ℚ
  hour : ℕ
  day_of_week : ℕ
  target_temp : Option ℚ
  deriving DecidableEq, Repr

/-- `pandas` `dt.hour` of a seconds-since-epoch UTC instant. -/
def hourOf (ts : ℕ) : ℕ := ts / 3600 % 24

/-- `pandas` `dt.dayofweek` (Monday = 0) of a seconds-since-epoch UTC instant;
the epoch fell on a Thursday (= 3). -/
def dayOfWeekOf (ts : ℕ) : ℕ := (ts / 86400 + 3) % 7

/-- The feature row built from reading `r` whose `shift(-1)` target is `t`. -/
def mkFeatureRow (r : Reading) (t : Option ℚ) : FeatureRow :=
  { timestamp := r.timestamp
    temperature := r.temperature
    humidity := r.humidity
    wind_speed := r.wind_speed
    hour := hourOf r.timestamp
    day_of_week := dayOfWeekOf r.timestamp
    target_temp := t }

/-- The engineered rows: `hour`/`day_of_week` from the timestamp and
`target_temp = temperature.shift(-1)` (the next row's temperature, `none` for
the last row). -/
def featRows : List Reading → List FeatureRow
  | [] => []
  | [r] => [mkFeatureRow r none]
  | r :: r' :: rest => mkFeatureRow r r'.temperature :: featRows (r' :: rest)

/-- `df.dropna()` keeps a row iff no cell is NaN; the `ℕ`-valued columns
(timestamp, hour, day_of_week) are always present, so only the four `Option`
columns matter. -/
def rowClean (r : FeatureRow) : Bool :=
  r.temperature.isSome && r.humidity.isSome && r.wind_speed.isSome &&
    r.target_temp.isSome

/-- A reading with no missing cell ("fully populated"). -/
def readingFull (r : Reading) : Bool :=
  r.temperature.isSome && r.humidity.isSome && r.wind_speed.isSome

/-- Ascending-by-timestamp check on a reading sequence. -/
def sortedByTs : List Reading → Bool
  | [] => true
  | [_] => true
  | a :: b :: rest => (a.timestamp ≤ b.timestamp) && sortedByTs (b :: rest)

/-- `predict_only.engineer_features`: on an empty frame return the two empty
frames unchanged; otherwise derive `hour`, `day_of_week` and `target_temp` and
pair the full frame with its `dropna()`. -/
def engineer_features (df : List Reading) : List FeatureRow × List FeatureRow :=
  if df.isEmpty then ([], [])
  else
    let feat := featRows df
    (feat, feat.filter rowClean)

/-- Ascending-timestamp comparison used by `sort_values('timestamp')`. -/
def tsLE (a b : Reading) : Prop := a.timestamp ≤ b.timestamp

instance : DecidableRel tsLE := fun a b =>
  inferInstanceAs (Decidable (a.timestamp ≤ b.timestamp))

instance : IsTotal Reading tsLE := ⟨fun a b => Nat.le_total a.timestamp b.timestamp⟩

instance : IsTrans Reading tsLE := ⟨fun _ _ _ => Nat.le_trans⟩

/-- `predict_only.load_latest_data`: the whole BigQuery interaction sits in a
`try`/`except` that returns an empty frame on any error, so the embedded
function takes the query outcome (`Except`) and never fails itself.  A
successful non-empty result (descending by the SQL's `ORDER BY timestamp
DESC`) is re-sorted ascending by `sort_values('timestamp')`. -/
def load_latest_data (qres : Except String (List Reading)) : List Reading :=
  match qres with
  | .error _ => []
  | .ok df => if df.isEmpty then df else List.insertionSort tsLE df

/-- The persisted regression artifact: scikit-learn's `LinearRegression` is
external, so the model is opaque — all the pipeline uses is its `predict` on a
(temperature, hour, humidity) row, embedded as a total evaluation function. -/
structure Model where
  eval : ℚ → ℕ → ℚ → ℚ

/-- `predict_only.predict_next_temperature`, with the artifact read
(`tm.load_model()`) passed in as `model` (`none` = no `weather_model.pkl` on
disk).  The result `none` marks an escaping exception: `df.tail(1)` empty makes
`.values[0]` raise, and scikit-learn's `predict` raises on a NaN feature. -/
def predict_next_temperature (df df_clean : List FeatureRow)
    (model : Option Model) : Option (Option ℚ × Option ℚ × String) :=
  if df_clean.isEmpty then some (none, none, "no_data")
  else
    match model with
    | none => some (none, none, "no_model")
    | some m =>
      match df.getLast? with
      | none => none
      | some row =>
        match row.temperature, row.humidity with
        | some t, some h => some (some t, some (m.eval t row.hour h), "ok")
        | _, _ => none

/-- A file-system operation performed on the model-artifact store. -/
inductive FsOp where
  | write (path : String)
  | rename (src dst : String)
  deriving DecidableEq, Repr

/-- A (temperature, hour, humidity) feature vector with its target, as handed
to `LinearRegression.fit`. -/
def TrainPoint : Type := (ℚ × ℕ × ℚ) × ℚ

/-- Column extraction `X = df_clean[["temperature","hour","humidity"]]`,
`y = df_clean["target_temp"]`; scikit-learn's `fit` raises on a NaN cell, so
extraction fails (`none`) if any needed cell is missing. -/
def extractTrain : List FeatureRow → Option (List TrainPoint)
  | [] => some []
  | r :: rest =>
    match r.temperature, r.humidity, r.target_temp, extractTrain rest with
    | some t, some h, some y, some pts => some (((t, r.hour, h), y) :: pts)
    | _, _, _, _ => none

/-- `train_model.train_model`: return `None` when `len(df_clean) <= 2`;
otherwise fit on the extracted columns and `joblib.dump` the model to
`model_path` (recorded as the trace of file operations).  `fit` is
scikit-learn's least-squares fitting, an external collaborator; `df` (the full
frame) is accepted but unused, as in the source.  The outer `none` is the
exception scikit-learn raises when a NaN reaches `fit`. -/
def train_model (fit : List TrainPoint → Model) (df df_clean : List FeatureRow)
    (model_path : String) : Option (Option Model × List FsOp) :=
  if df_clean.length ≤ 2 then some (none, [])
  else
    match extractTrain df_clean with
    | none => none
    | some pts => some (some (fit pts), [FsOp.write model_path])

/-- An operation trace replaces the artifact at `target` atomically iff it
never writes `target` in place (only a rename may produce it). -/
def savedAtomically (ops : List FsOp) (target : String) : Bool :=
  ops.all fun op =>
    match op with
    | .write p => p ≠ target
    | .rename _ _ => true

/-- A JSON configuration value as held in `Config._config` (a Python dict is an
insertion-ordered association list with distinct keys). -/
inductive JVal where
  | str : String → JVal
  | num : ℚ → JVal
  | bool : Bool → JVal
  | obj : List (String × JVal) → JVal

/-- Python dict lookup `d[k]` / `d.get(k)`: the first binding of `k`. -/
def lookupKey : List (String × JVal) → String → Option JVal
  | [], _ => none
  | (k', v) :: rest, k => if k' = k then some v else lookupKey rest k

/-- Python dict assignment `d[k] = v`: update the first binding of `k` in
place, or append a new binding if `k` is absent. -/
def setKey : List (String × JVal) → String → JVal → List (String × JVal)
  | [], k, v => [(k, v)]
  | (k', v') :: rest, k, v =>
    if k' = k then (k, v) :: rest else (k', v') :: setKey rest k v

/-- `Config._deep_merge`: start from a copy of `base` and fold the `override`
bindings in, merging recursively when both sides hold a dict at the key and
replacing the value otherwise. -/
def deepMergeList : List (String × JVal) → List (String × JVal) → List (String × JVal)
  | base, [] => base
  | base, (k, v) :: rest =>
    let merged :=
      match lookupKey base k, v with
      | some (JVal.obj bsub), JVal.obj osub =>
        setKey base k (JVal.obj (deepMergeList bsub osub))
      | _, _ => setKey base k v
    deepMergeList merged rest
termination_by _ o => sizeOf o
decreasing_by all_goals (simp_wf <;> omega)

/-- The built-in `defaults` dict of `Config._load_config`. -/
def defaultConfig : List (String × JVal) :=
  [("gcp", .obj [("project_id", .str "ai-realtime-project"),
                 ("dataset_id", .str "sensor_data_stream"),
                 ("table_id", .str "real-weather"),
                 ("credentials_file", .str "ai-realtime-project-4de709b969f4.json")]),
   ("api", .obj [("predict_api_url", .str "http://localhost:8000"),
                 ("timeout", .num 5)]),
   ("weather", .obj [("latitude", .num (16047079 / 1000000)),
                     ("longitude", .num (108206230 / 1000000)),
                     ("city", .str "Danang")]),
   ("model", .obj [("model_file", .str "weather_model.pkl")]),
   ("app", .obj [("show_debug_info", .bool false)])]

/-- `self._config[sec][leaf] = v`: fails (`none`, a raised `KeyError` /
`TypeError`) when section `sec` is absent or not a dict. -/
def setLeaf (cfg : List (String × JVal)) (sec leaf : String) (v : JVal) :
    Option (List (String × JVal)) :=
  match lookupKey cfg sec with
  | some (JVal.obj l) => some (setKey cfg sec (JVal.obj (setKey l leaf v)))
  | _ => none

/-- Read the leaf at `cfg[sec][leaf]` as `Config.get(sec, leaf)` does. -/
def getLeaf (cfg : List (String × JVal)) (sec leaf : String) : Option JVal :=
  match lookupKey cfg sec with
  | some (JVal.obj l) => lookupKey l leaf
  | _ => none

/-- The process environment as read by `Config._apply_env_overrides`
(`os.getenv` yields `none` when the variable is unset). -/
structure EnvVars where
  gcp_project_id : Option String := none
  bigquery_dataset : Option String := none
  bigquery_table : Option String := none
  google_application_credentials : Option String := none
  predict_api_url : Option String := none
  weather_lat : Option String := none
  weather_lon : Option String := none
  weather_city : Option String := none

/-- One `if os.getenv(VAR): cfg[sec][leaf] = os.getenv(VAR)` step: applied only
when the variable is set to a truthy (non-empty) string. -/
def applyStrOverride (sec leaf : String) (ov : Option String)
    (cfg : List (String × JVal)) : Option (List (String × JVal)) :=
  match ov with
  | none => some cfg
  | some s => if s = "" then some cfg else setLeaf cfg sec leaf (JVal.str s)

/-- One `if os.getenv(VAR): cfg[sec][leaf] = float(os.getenv(VAR))` step;
`pf` embeds Python's `float` parse, whose failure raises (`none`). -/
def applyFloatOverride (pf : String → Option ℚ) (sec leaf : String)
    (ov : Option String) (cfg : List (String × JVal)) :
    Option (List (String × JVal)) :=
  match ov with
  | none => some cfg
  | some s =>
    if s = "" then some cfg
    else
      match pf s with
      | none => none
      | some q => setLeaf cfg sec leaf (JVal.num q)

/-- `Config._apply_env_overrides`: the eight dedicated overrides in source
order. -/
def applyEnvOverrides (pf : String → Option ℚ) (env : EnvVars)
    (cfg : List (String × JVal)) : Option (List (String × JVal)) := do
  let cfg ← applyStrOverride "gcp" "project_id" env.gcp_project_id cfg
  let cfg ← applyStrOverride "gcp" "dataset_id" env.bigquery_dataset cfg
  let cfg ← applyStrOverride "gcp" "table_id" env.bigquery_table cfg
  let cfg ← applyStrOverride "gcp" "credentials_file"
    env.google_application_credentials cfg
  let cfg ← applyStrOverride "api" "predict_api_url" env.predict_api_url cfg
  let cfg ← applyFloatOverride pf "weather" "latitude" env.weather_lat cfg
  let cfg ← applyFloatOverride pf "weather" "longitude" env.weather_lon cfg
  let cfg ← applyStrOverride "weather" "city" env.weather_city cfg
  some cfg

/-! ## Helper lemmas -/

theorem featRows_length : ∀ rs : List Reading, (featRows rs).length = rs.length
  | [] => rfl
  | [_] => rfl
  | r :: r' :: rest => by
    simp only [featRows, List.length_cons]
    rw [featRows_length (r' :: rest)]
    simp

theorem featRows_getElem? :
    ∀ (rs : List Reading) (i : ℕ),
      (featRows rs)[i]? =
        (rs[i]?).map fun r => mkFeatureRow r ((rs[i + 1]?).bind Reading.temperature)
  | [], i => by simp [featRows]
  | [r], i => by
    match i with
    | 0 => simp [featRows]
    | i + 1 => simp [featRows]
  | r :: r' :: rest, i => by
    match i with
    | 0 => simp [featRows]
    | i + 1 =>
      have ih := featRows_getElem? (r' :: rest) i
      simpa [featRows] using ih

theorem featRows_filter_length :
    ∀ rs : List Reading, (∀ r ∈ rs, readingFull r = true) →
      ((featRows rs).filter rowClean).length = rs.length - 1
  | [], _ => rfl
  | [r], _ => by simp [featRows, rowClean, mkFeatureRow]
  | r :: r' :: rest, h => by
    have hr : readingFull r = true := h r (by simp)
    have hr' : readingFull r' = true := h r' (by simp)
    have ih := featRows_filter_length (r' :: rest) fun x hx => h x (by simp [hx])
    simp only [readingFull, Bool.and_eq_true] at hr hr'
    simp only [featRows, List.filter_cons, rowClean, mkFeatureRow, hr.1.1,
      hr.1.2, hr.2, hr'.1.1, Bool.and_self, Bool.and_true, Bool.true_and,
      if_true, List.length_cons, ih]
    omega

theorem extractTrain_isSome :
    ∀ rows : List FeatureRow, (∀ r ∈ rows, rowClean r = true) →
      (extractTrain rows).isSome = true
  | [], _ => rfl
  | r :: rest, h => by
    have hr : rowClean r = true := h r (by simp)
    have ih := extractTrain_isSome rest fun x hx => h x (by simp [hx])
    rw [rowClean, Bool.and_eq_true, Bool.and_eq_true, Bool.and_eq_true] at hr
    obtain ⟨⟨⟨ht, hh⟩, hw⟩, hy⟩ := hr
    obtain ⟨t, ht⟩ := Option.isSome_iff_exists.mp ht
    obtain ⟨hu, hh⟩ := Option.isSome_iff_exists.mp hh
    obtain ⟨y, hy⟩ := Option.isSome_iff_exists.mp hy
    obtain ⟨pts, hp⟩ := Option.isSome_iff_exists.mp ih
    simp [extractTrain, ht, hh, hy, hp]

theorem lookupKey_setKey_self :
    ∀ (l : List (String × JVal)) (k : String) (v : JVal),
      lookupKey (setKey l k v) k = some v
  | [], k, v => by simp [setKey, lookupKey]
  | (k', v') :: rest, k, v => by
    by_cases hk : k' = k
    · simp [setKey, lookupKey, hk]
    · simp [setKey, lookupKey, hk, lookupKey_setKey_self rest k v]

theorem lookupKey_setKey_ne :
    ∀ (l : List (String × JVal)) (k k' : String) (v : JVal), k' ≠ k →
      lookupKey (setKey l k v) k' = lookupKey l k'
  | [], k, k', v, h => by simp [setKey, lookupKey, Ne.symm h]
  | (k₀, v₀) :: rest, k, k', v, h => by
    by_cases hk : k₀ = k
    · subst hk
      simp [setKey, lookupKey, Ne.symm h]
    · simp only [setKey, if_neg hk, lookupKey]
      by_cases hk' : k₀ = k'
      · simp [hk']
      · simp [hk', lookupKey_setKey_ne rest k k' v h]

theorem setLeaf_spec (cfg : List (String × JVal)) (sec leaf : String) (v : JVal)
    (g : List (String × JVal)) (hg : lookupKey cfg sec = some (JVal.obj g)) :
    setLeaf cfg sec leaf v = some (setKey cfg sec (JVal.obj (setKey g leaf v)))
      ∧ getLeaf (setKey cfg sec (JVal.obj (setKey g leaf v))) sec leaf = some v
      ∧ ∀ sec' leaf', (sec' ≠ sec ∨ leaf' ≠ leaf) →
          getLeaf (setKey cfg sec (JVal.obj (setKey g leaf v))) sec' leaf'
            = getLeaf cfg sec' leaf' := by
  refine ⟨by simp [setLeaf, hg], ?_, ?_⟩
  · simp [getLeaf, lookupKey_setKey_self, lookupKey_setKey_self g leaf v]
  · intro sec' leaf' hne
    by_cases hs : sec' = sec
    · subst hs
      rcases hne with hne | hne
      · exact absurd rfl hne
      · simp [getLeaf, lookupKey_setKey_self, hg,
          lookupKey_setKey_ne g leaf leaf' v hne]
    · simp only [getLeaf,
        lookupKey_setKey_ne cfg sec sec' (JVal.obj (setKey g leaf v)) hs]

/-! ## Concrete instances used by witnesses and counterexamples -/

/-- A concrete model artifact (a constant regressor). -/
def modelW : Model := ⟨fun _ _ _ => 0⟩

/-- A concrete stand-in for scikit-learn's fitting collaborator. -/
def fitW : List TrainPoint → Model := fun _ => modelW

/-- Fully-populated sample readings with ascending timestamps. -/
def r0W : Reading := ⟨0, some 20, some 60, some 1⟩

/-- Second sample reading. -/
def r1W : Reading := ⟨3600, some 21, some 61, some 2⟩

/-- Third sample reading. -/
def r2W : Reading := ⟨7200, some 22, some 62, some 3⟩

/-- A fully-populated engineered row with a known target. -/
def cleanRowW : FeatureRow := ⟨0, some 20, some 60, some 1, 0, 3, some 21⟩

/-! ## Claims -/

/-- C1, counterexample.  The claim says `predict_next_temperature` returns
`no_model` whenever no artifact exists *regardless of data*; but with an empty
trainable frame and no artifact the code returns `no_data` (the emptiness check
comes first).  Moreover with arbitrary frames (empty feature frame, non-empty
trainable frame) the artifact-present branch raises rather than returning
`ok`. -/
theorem c1_predict_precedence_counterexample :
    predict_next_temperature [] [] none = some (none, none, "no_data")
      ∧ ("no_data" : String) ≠ "no_model"
      ∧ predict_next_temperature [] [cleanRowW] (some modelW) = none :=
  ⟨rfl, by decide, rfl⟩

/-- C1, amended.  For frames produced by `engineer_features` on a
fully-populated reading sequence: status is `no_data` (both temperatures
absent) when the trainable frame is empty — this takes precedence over a
missing artifact; `no_model` (both temperatures absent) when the trainable
frame is non-empty and no artifact exists; and `ok` with numeric current and
predicted temperatures when the trainable frame is non-empty and an artifact
exists. -/
theorem c1_predict_status_amended (rs : List Reading) (m : Option Model)
    (hpop : ∀ r ∈ rs, readingFull r = true) :
    ((engineer_features rs).2 = [] →
      predict_next_temperature (engineer_features rs).1 (engineer_features rs).2 m
        = some (none, none, "no_data"))
    ∧ ((engineer_features rs).2 ≠ [] → m = none →
      predict_next_temperature (engineer_features rs).1 (engineer_features rs).2 m
        = some (none, none, "no_model"))
    ∧ ∀ mdl : Model, (engineer_features rs).2 ≠ [] → m = some mdl →
      ∃ c p : ℚ,
        predict_next_temperature (engineer_features rs).1 (engineer_features rs).2 m
          = some (some c, some p, "ok") := by
  refine ⟨?_, ?_, ?_⟩
  · intro h2
    simp [predict_next_temperature, h2]
  · intro h2 hm
    subst hm
    simp [predict_next_temperature, List.isEmpty_eq_false.mpr h2]
  · intro mdl h2 hm
    subst hm
    have hrs : rs ≠ [] := by
      intro h
      apply h2
      rw [h]
      rfl
    have hne : rs.isEmpty = false := List.isEmpty_eq_false.mpr hrs
    have hn : 0 < rs.length := List.length_pos.mpr hrs
    have hfe1 : (engineer_features rs).1 = featRows rs := by
      simp [engineer_features, hne]
    have hlast : (featRows rs).getLast? =
        some (mkFeatureRow (rs.get ⟨rs.length - 1, by omega⟩) none) := by
      rw [List.getLast?_eq_getElem?, featRows_length, featRows_getElem?]
      rw [List.getElem?_eq_getElem (show rs.length - 1 < rs.length by omega),
        List.getElem?_eq_none (show rs.length ≤ rs.length - 1 + 1 by omega)]
      simp [List.get_eq_getElem]
    have hmem : rs.get ⟨rs.length - 1, by omega⟩ ∈ rs := rs.get_mem _ _
    have hfull := hpop _ hmem
    rw [readingFull, Bool.and_eq_true, Bool.and_eq_true] at hfull
    obtain ⟨⟨ht, hh⟩, hw⟩ := hfull
    obtain ⟨t, ht⟩ := Option.isSome_iff_exists.mp ht
    obtain ⟨hu, hh⟩ := Option.isSome_iff_exists.mp hh
    refine ⟨t, mdl.eval t (hourOf (rs.get ⟨rs.length - 1, by omega⟩).timestamp) hu, ?_⟩
    have hcl : (engineer_features rs).2.isEmpty = false := List.isEmpty_eq_false.mpr h2
    rw [List.get_eq_getElem] at ht hh
    simp [predict_next_temperature, hcl, hfe1, hlast, mkFeatureRow, ht, hh]

/-- C1, witness: on two fully-populated readings with an artifact present the
amended theorem yields an `ok` result with both temperatures numeric. -/
theorem c1_predict_status_amended_witness :
    ∃ c p : ℚ,
      predict_next_temperature (engineer_features [r0W, r1W]).1
        (engineer_features [r0W, r1W]).2 (some modelW)
        = some (some c, some p, "ok") := by
  have h := c1_predict_status_amended [r0W, r1W] (some modelW) (by decide)
  exact h.2.2 modelW (by decide) rfl

/-- C2, code-bug evidence.  On a sufficient trainable frame `train_model`
persists the fitted model by a single direct write to the well-known artifact
path (`joblib.dump(model, model_path)`): the operation trace is one in-place
write of `weather_model.pkl` and not a write-to-temporary-then-replace, so the
save is not atomic for readers. -/
theorem c2_save_overwrites_in_place :
    (∃ m : Model,
      train_model fitW [] [cleanRowW, cleanRowW, cleanRowW] "weather_model.pkl"
        = some (some m, [FsOp.write "weather_model.pkl"]))
    ∧ savedAtomically [FsOp.write "weather_model.pkl"] "weather_model.pkl" = false :=
  ⟨⟨fitW [((20, 0, 60), 21), ((20, 0, 60), 21), ((20, 0, 60), 21)], rfl⟩, by decide⟩

/-- C3.  On a trainable frame of clean rows, `train_model` yields the
`InsufficientData` outcome (`None`, no artifact write) iff the frame has at
most 2 rows; with 3 or more rows it yields a fitted model (and one artifact
write). -/
theorem c3_train_insufficient_iff (fit : List TrainPoint → Model)
    (df df_clean : List FeatureRow) (path : String)
    (h : ∀ r ∈ df_clean, rowClean r = true) :
    (train_model fit df df_clean path = some (none, []) ↔ df_clean.length ≤ 2)
    ∧ (2 < df_clean.length →
        ∃ m, train_model fit df df_clean path = some (some m, [FsOp.write path])) := by
  have hex := extractTrain_isSome df_clean h
  obtain ⟨pts, hp⟩ := Option.isSome_iff_exists.mp hex
  constructor
  · constructor
    · intro he
      by_contra hgt
      rw [Nat.not_le] at hgt
      simp [train_model, Nat.not_le.mpr hgt, hp] at he
    · intro hle
      simp [train_model, hle]
  · intro hgt
    exact ⟨fit pts, by simp [train_model, Nat.not_le.mpr hgt, hp]⟩

/-- C3, witness: instantiated on a concrete three-row clean frame. -/
theorem c3_train_insufficient_iff_witness :
    (train_model fitW [] [cleanRowW, cleanRowW, cleanRowW] "p" = some (none, [])
      ↔ ([cleanRowW, cleanRowW, cleanRowW] : List FeatureRow).length ≤ 2)
    ∧ (2 < ([cleanRowW, cleanRowW, cleanRowW] : List FeatureRow).length →
        ∃ m, train_model fitW [] [cleanRowW, cleanRowW, cleanRowW] "p"
          = some (some m, [FsOp.write "p"])) :=
  c3_train_insufficient_iff fitW [] [cleanRowW, cleanRowW, cleanRowW] "p" (by decide)

/-- C4.  On an ascending-sorted, fully-populated reading sequence,
`engineer_features` returns a feature frame of the input's length and a
trainable frame one shorter (0 for a singleton); on the empty input it returns
two empty frames. -/
theorem c4_engineer_lengths (rs : List Reading)
    (hs : sortedByTs rs = true) (hpop : ∀ r ∈ rs, readingFull r = true) :
    (engineer_features rs).1.length = rs.length
    ∧ (engineer_features rs).2.length = rs.length - 1
    ∧ engineer_features ([] : List Reading) = ([], []) := by
  refine ⟨?_, ?_, rfl⟩
  · by_cases hrs : rs = []
    · subst hrs
      rfl
    · simp [engineer_features, List.isEmpty_eq_false.mpr hrs, featRows_length]
  · by_cases hrs : rs = []
    · subst hrs
      rfl
    · simp [engineer_features, List.isEmpty_eq_false.mpr hrs,
        featRows_filter_length rs hpop]

/-- C4, witness: instantiated on three ascending fully-populated readings. -/
theorem c4_engineer_lengths_witness :
    (engineer_features [r0W, r1W, r2W]).1.length = ([r0W, r1W, r2W] : List Reading).length
    ∧ (engineer_features [r0W, r1W, r2W]).2.length
        = ([r0W, r1W, r2W] : List Reading).length - 1
    ∧ engineer_features ([] : List Reading) = ([], []) :=
  c4_engineer_lengths [r0W, r1W, r2W] (by decide) (by decide)

/-- C5.  In the feature frame engineered from an ascending-sorted reading
sequence, row `i`'s `target_temp` equals row `i+1`'s `temperature` for every
`i < n - 1`, and the last row's `target_temp` is null. -/
theorem c5_target_is_next_temperature (rs : List Reading) (i : ℕ)
    (hs : sortedByTs rs = true) (hi : i + 1 < rs.length) :
    ((engineer_features rs).1[i]?.map FeatureRow.target_temp)
      = ((engineer_features rs).1[i + 1]?.map FeatureRow.temperature)
    ∧ ((engineer_features rs).1.getLast?.map FeatureRow.target_temp) = some none := by
  have hrs : rs ≠ [] := by
    intro h
    subst h
    simp at hi
  have hne1 : (engineer_features rs).1 = featRows rs := by
    simp [engineer_features, List.isEmpty_eq_false.mpr hrs]
  rw [hne1]
  constructor
  · rw [featRows_getElem?, featRows_getElem?,
      List.getElem?_eq_getElem (show i < rs.length by omega),
      List.getElem?_eq_getElem hi]
    simp [mkFeatureRow]
  · have hn : 0 < rs.length := List.length_pos.mpr hrs
    rw [List.getLast?_eq_getElem?, featRows_length, featRows_getElem?,
      List.getElem?_eq_getElem (show rs.length - 1 < rs.length by omega),
      List.getElem?_eq_none (show rs.length ≤ rs.length - 1 + 1 by omega)]
    simp [mkFeatureRow]

/-- C5, witness: instantiated at index 0 of three ascending readings. -/
theorem c5_target_is_next_temperature_witness :
    ((engineer_features [r0W, r1W, r2W]).1[0]?.map FeatureRow.target_temp)
      = ((engineer_features [r0W, r1W, r2W]).1[0 + 1]?.map FeatureRow.temperature)
    ∧ ((engineer_features [r0W, r1W, r2W]).1.getLast?.map FeatureRow.target_temp)
        = some none :=
  c5_target_is_next_temperature [r0W, r1W, r2W] 0 (by decide) (by decide)

/-- C6.  When the store read path fails (the query raises), `load_latest_data`
returns the empty frame — no exception crosses the query boundary — and the
downstream `predict_next_temperature` call on the frames engineered from it
reaches its `no_data` path, whatever the artifact state. -/
theorem c6_query_failure_degrades_to_no_data (e : String) (m : Option Model) :
    load_latest_data (Except.error e) = []
    ∧ predict_next_temperature
        (engineer_features (load_latest_data (Except.error e))).1
        (engineer_features (load_latest_data (Except.error e))).2 m
      = some (none, none, "no_data") :=
  ⟨rfl, rfl⟩

/-- C7.  On any resolved configuration whose `gcp` section is an object,
applying the environment override for the single leaf `gcp.project_id`
(variable `GCP_PROJECT_ID`) replaces exactly that leaf: the overridden leaf
reads back as the override value and every other (section, leaf) path reads
back unchanged — in particular all `gcp` siblings and all other sections. -/
theorem c7_env_override_replaces_only_leaf (pf : String → Option ℚ)
    (cfg : List (String × JVal)) (v : String) (hv : v ≠ "")
    (g : List (String × JVal)) (hg : lookupKey cfg "gcp" = some (JVal.obj g)) :
    ∃ cfg', applyEnvOverrides pf { gcp_project_id := some v } cfg = some cfg'
      ∧ getLeaf cfg' "gcp" "project_id" = some (JVal.str v)
      ∧ ∀ sec leaf : String, (sec ≠ "gcp" ∨ leaf ≠ "project_id") →
          getLeaf cfg' sec leaf = getLeaf cfg sec leaf := by
  obtain ⟨hset, hget, hother⟩ :=
    setLeaf_spec cfg "gcp" "project_id" (JVal.str v) g hg
  refine ⟨setKey cfg "gcp" (JVal.obj (setKey g "project_id" (JVal.str v))),
    ?_, hget, hother⟩
  simp [applyEnvOverrides, applyStrOverride, applyFloatOverride, hv, hset]

/-- C7, witness: overriding `gcp.project_id` on the default configuration. -/
theorem c7_env_override_replaces_only_leaf_witness :
    ∃ cfg', applyEnvOverrides (fun _ => none)
        { gcp_project_id := some "my-project" } defaultConfig = some cfg'
      ∧ getLeaf cfg' "gcp" "project_id" = some (JVal.str "my-project")
      ∧ ∀ sec leaf : String, (sec ≠ "gcp" ∨ leaf ≠ "project_id") →
          getLeaf cfg' sec leaf = getLeaf defaultConfig sec leaf := by
  exact c7_env_override_replaces_only_leaf (fun _ => none) defaultConfig
    "my-project" (by decide)
    [("project_id", .str "ai-realtime-project"),
     ("dataset_id", .str "sensor_data_stream"),
     ("table_id", .str "real-weather"),
     ("credentials_file", .str "ai-realtime-project-4de709b969f4.json")] rfl

/-- C8.  `engineer_features` is deterministic: it is a pure function of the
ordered input frame (no hidden state), so equal inputs give equal feature and
trainable frames. -/
theorem c8_engineer_deterministic (df1 df2 : List Reading) (h : df1 = df2) :
    engineer_features df1 = engineer_features df2 := by
  rw [h]

/-- C8, witness: instantiated on a concrete input. -/
theorem c8_engineer_deterministic_witness :
    engineer_features [r0W, r1W] = engineer_features [r0W, r1W] :=
  c8_engineer_deterministic [r0W, r1W] [r0W, r1W] rfl

/-- C9.  `predict_next_temperature` never reports `ok` with a missing
temperature: whenever it returns at all and the status is `ok`, both the
current and the predicted temperature are present, and a missing temperature
comes only with status `no_data` or `no_model` (so the HTTP handler's extra
`None` check is unreachable). -/
theorem c9_ok_implies_temps_present (df df_clean : List FeatureRow)
    (m : Option Model) (c p : Option ℚ) (s : String)
    (hres : predict_next_temperature df df_clean m = some (c, p, s)) :
    (s = "ok" → c.isSome = true ∧ p.isSome = true)
    ∧ ((c = none ∨ p = none) → s = "no_data" ∨ s = "no_model") := by
  by_cases hcl : df_clean.isEmpty = true
  · rw [show predict_next_temperature df df_clean m
        = some (none, none, "no_data") from by
      simp [predict_next_temperature, hcl]] at hres
    simp only [Option.some.injEq, Prod.mk.injEq] at hres
    obtain ⟨rfl, rfl, rfl⟩ := hres
    exact ⟨fun h => absurd h (by decide), fun _ => Or.inl rfl⟩
  · rw [Bool.not_eq_true] at hcl
    rcases m with _ | mm
    · rw [show predict_next_temperature df df_clean none
          = some (none, none, "no_model") from by
        simp [predict_next_temperature, hcl]] at hres
      simp only [Option.some.injEq, Prod.mk.injEq] at hres
      obtain ⟨rfl, rfl, rfl⟩ := hres
      exact ⟨fun h => absurd h (by decide), fun _ => Or.inr rfl⟩
    · rcases hl : df.getLast? with _ | row
      · simp [predict_next_temperature, hcl, hl] at hres
      · rcases htp : row.temperature with _ | t
        · simp [predict_next_temperature, hcl, hl, htp] at hres
        · rcases hhu : row.humidity with _ | hq
          · simp [predict_next_temperature, hcl, hl, htp, hhu] at hres
          · rw [show predict_next_temperature df df_clean (some mm)
                = some (some t, some (mm.eval t row.hour hq), "ok") from by
              simp [predict_next_temperature, hcl, hl, htp, hhu]] at hres
            simp only [Option.some.injEq, Prod.mk.injEq] at hres
            obtain ⟨rfl, rfl, rfl⟩ := hres
            refine ⟨fun _ => ⟨rfl, rfl⟩, fun hc => ?_⟩
            rcases hc with hc | hc <;> simp at hc

/-- C9, witness: instantiated on a one-row frame with an artifact present,
where the call returns `ok` with both temperatures. -/
theorem c9_ok_implies_temps_present_witness :
    ((("ok" : String) = "ok" →
        (some (20 : ℚ)).isSome = true ∧ (some (0 : ℚ)).isSome = true))
    ∧ ((some (20 : ℚ) = none ∨ some (0 : ℚ) = none) →
        ("ok" : String) = "no_data" ∨ ("ok" : String) = "no_model") :=
  c9_ok_implies_temps_present [cleanRowW] [cleanRowW] (some modelW)
    (some 20) (some 0) "ok" rfl

/-- C10.  Every frame returned by `load_latest_data` is sorted ascending by
timestamp (the descending query result is re-sorted before returning), so the
ascending-order precondition of `engineer_features` is always met on the
inference path. -/
theorem c10_load_latest_sorted (q : Except String (List Reading)) :
    List.Sorted tsLE (load_latest_data q) := by
  match q with
  | .error e => exact List.sorted_nil
  | .ok df =>
    simp only [load_latest_data]
    split
    · next h =>
      rw [List.isEmpty_iff.mp h]
      exact List.sorted_nil
    · exact List.sorted_insertionSort tsLE df
